import Mathlib

/-!
Shallow embedding of the CloudStackCluster controller
(`controllers/cloudstackcluster_controller.go`) from
cluster-api-provider-cloudstack, together with proofs of the specified
properties of its reconciliation pipeline, deletion coordinator, status
projector and event filters.

Machine-level conventions: Go strings are Lean `String`s; Go slices are
Lean `List`s; a Go map is an association list kept duplicate-free by its
insert operation; a Go step returning `(ctrl.Result, error)` is a Lean
`StepResult` with three shapes: continue, requeue-with-reason, error.
Parts of the repository that the controller calls but whose source is not
in scope (the api/v1beta2 type declarations and the
`csCtrlrUtils.ReconciliationRunner` base) are modelled from the spec and
marked as such in their doc comments.
-/

/-- Modelled from the spec: an entry of `CloudStackClusterSpec.FailureDomains`
(the api/v1beta2 `CloudStackFailureDomainSpec` declaration is not in scope);
the spec's data model gives it a `Name` that is unique after normalization. -/
structure CloudStackFailureDomainSpec where
  Name : String
deriving DecidableEq, Repr

/-- Embeds `clusterv1.FailureDomainSpec` as used at line 126 of the source:
only its `ControlPlane` flag is ever set. -/
structure FailureDomainSpecV1 where
  ControlPlane : Bool
deriving DecidableEq, Repr

/-- Go map insert `m[k] = v`: replaces any entry under `k`, otherwise adds one. -/
def mapInsert (m : List (String × FailureDomainSpecV1)) (k : String)
    (v : FailureDomainSpecV1) : List (String × FailureDomainSpecV1) :=
  (m.filter fun p => p.1 ≠ k) ++ [(k, v)]

/-- Go map lookup `m[k]`. -/
def mapLookup (m : List (String × FailureDomainSpecV1)) (k : String) :
    Option FailureDomainSpecV1 :=
  (m.find? fun p => p.1 = k).map Prod.snd

/-- Modelled from the spec: the mutable status of the Subject (api/v1beta2
`CloudStackClusterStatus`, not in scope) — a readiness flag and a map of
realized failure-domain names to descriptors. -/
structure CloudStackClusterStatus where
  Ready : Bool
  FailureDomains : List (String × FailureDomainSpecV1)
deriving DecidableEq, Repr

/-- Modelled from the spec: the Subject's object metadata — identity,
version counters for optimistic concurrency, finalizer markers, and
bookkeeping (`ManagedFields`); `Labels` and `Generation` stand for the
remaining metadata the event filter does not mask. -/
structure ObjectMeta where
  Name : String
  Namespace : String
  Generation : Nat
  Labels : List (String × String)
  ResourceVersion : String
  Finalizers : List String
  ManagedFields : List String
deriving DecidableEq, Repr

/-- Modelled from the spec: the Subject's immutable spec (api/v1beta2
`CloudStackClusterSpec`, not in scope) — a list of FailureDomainSpec entries. -/
structure CloudStackClusterSpec where
  FailureDomains : List CloudStackFailureDomainSpec
deriving DecidableEq, Repr

/-- Modelled from the spec: the Subject (api/v1beta2 `CloudStackCluster`,
not in scope) — metadata, spec and status. -/
structure CloudStackCluster where
  meta : ObjectMeta
  Spec : CloudStackClusterSpec
  Status : CloudStackClusterStatus
deriving DecidableEq, Repr

/-- Modelled from the spec: the readiness flag carried by a dependent
resource (api/v1beta2 `CloudStackFailureDomainStatus`, not in scope). -/
structure CloudStackFailureDomainStatus where
  Ready : Bool
deriving DecidableEq, Repr

/-- Modelled from the spec: a dependent resource (api/v1beta2
`CloudStackFailureDomain`, not in scope), a separately stored object with
its own readiness flag; `Namespace` and `Name` are read by the requeue
message of `VerifyFailureDomainCRDs`. -/
structure CloudStackFailureDomain where
  Namespace : String
  Name : String
  Status : CloudStackFailureDomainStatus
deriving DecidableEq, Repr

/-- Modelled from the spec: `infrav1.ClusterFinalizer`, the opaque finalizer
token of the Subject (its declaration is not in scope; the token's exact
text is irrelevant to every property proved below). -/
def ClusterFinalizer : String := "cloudstackcluster.infrastructure.cluster.x-k8s.io"

/-- Embeds the working state of `CloudStackClusterReconciliationRunner`
(source lines 52-56): the Subject under reconciliation, the fetched
dependent list (`FailureDomains.Items`), and — modelled from the spec —
the owning CAPI cluster's name (`r.CAPICluster.Name`), which the base
runner resolves before the stages run. -/
structure CloudStackClusterReconciliationRunner where
  ReconciliationSubject : CloudStackCluster
  FailureDomains : List CloudStackFailureDomain
  CAPIClusterName : String
deriving DecidableEq, Repr

/-- Outcome of one pipeline step, embedding the Go pair `(ctrl.Result, error)`:
`ok` is `(ctrl.Result{}, nil)` (continue), `requeue reason` is the pair
produced by `RequeueWithMessage` (a rescheduling result and a nil error),
and `err msg` is a non-nil error. -/
inductive StepResult where
  | ok : StepResult
  | requeue (reason : String) : StepResult
  | err (msg : String) : StepResult
deriving DecidableEq, Repr

/-- Embeds the name normalization inlined at source lines 123-125: append
`"-" ++ owner` unless the name already ends with it. Go's
`strings.HasSuffix` is the suffix test on the name's characters. -/
def hasSuffix (s suffix : String) : Bool :=
  suffix.data.isSuffixOf s.data

/-- Embeds lines 123-125 of the source as a function of the spec name and
the owning cluster name. -/
def normalizeFDName (name owner : String) : String :=
  if hasSuffix name ("-" ++ owner) then name else name ++ "-" ++ owner

/-- Embeds `SetFailureDomainsStatusMap` (source lines 120-129): reset
`Status.FailureDomains` to the empty map, then for each declared
FailureDomainSpec insert an entry under the normalized name with
`ControlPlane: true`. The loop variable `fdSpec` is a per-iteration copy
in Go, so the normalized name is bound locally and the spec is untouched. -/
def SetFailureDomainsStatusMap (r : CloudStackClusterReconciliationRunner) :
    CloudStackClusterReconciliationRunner × StepResult :=
  let fds := r.ReconciliationSubject.Spec.FailureDomains.foldl
    (fun m fdSpec => mapInsert m (normalizeFDName fdSpec.Name r.CAPIClusterName) ⟨true⟩) []
  ({ r with ReconciliationSubject :=
      { r.ReconciliationSubject with Status :=
        { r.ReconciliationSubject.Status with FailureDomains := fds } } },
   StepResult.ok)

/-- First dependent in the fetched list whose status is not ready, mirroring
the range loop at source lines 111-115. -/
def firstNotReady : List CloudStackFailureDomain → Option CloudStackFailureDomain
  | [] => none
  | fd :: rest => if fd.Status.Ready then firstNotReady rest else some fd

/-- Embeds `VerifyFailureDomainCRDs` (source lines 105-117): requeue on a
count mismatch with the exact message of line 109, requeue naming the first
not-ready dependent (line 113), otherwise continue. `RequeueWithMessage`
(base runner, not in scope) is modelled from the spec as producing a
requeue, not an error. -/
def VerifyFailureDomainCRDs (r : CloudStackClusterReconciliationRunner) :
    CloudStackClusterReconciliationRunner × StepResult :=
  let expected := r.ReconciliationSubject.Spec.FailureDomains.length
  let actual := r.FailureDomains.length
  if expected ≠ actual then
    (r, StepResult.requeue
      ("Expected " ++ toString expected ++ " FailureDomains, but found " ++ toString actual))
  else
    match firstNotReady r.FailureDomains with
    | some fd => (r, StepResult.requeue
        ("FailureDomains " ++ fd.Namespace ++ "/" ++ fd.Name ++ " not ready, requeueing."))
    | none => (r, StepResult.ok)

/-- Embeds `controllerutil.AddFinalizer` (external library): append the
token unless already present. -/
def addFinalizer (l : List String) (f : String) : List String :=
  if f ∈ l then l else l ++ [f]

/-- Embeds `controllerutil.RemoveFinalizer` (external library): drop every
occurrence of the token. -/
def removeFinalizer (l : List String) (f : String) : List String :=
  l.filter fun x => x ≠ f

/-- Embeds `SetReady` (source lines 98-102): add the cluster finalizer, set
`Status.Ready` to true, return continue; the step cannot fail. -/
def SetReady (r : CloudStackClusterReconciliationRunner) :
    CloudStackClusterReconciliationRunner × StepResult :=
  ({ r with ReconciliationSubject :=
      { r.ReconciliationSubject with
        meta := { r.ReconciliationSubject.meta with
          Finalizers := addFinalizer r.ReconciliationSubject.meta.Finalizers ClusterFinalizer },
        Status := { r.ReconciliationSubject.Status with Ready := true } } },
   StepResult.ok)

/-- Responses of the external Resource Store during one Normal-mode
invocation: the outcome of the create step and of the fetch step. -/
structure StoreEnv where
  createResult : Option String
  fetchResult : Except String (List CloudStackFailureDomain)

/-- Modelled from the spec: `CreateFailureDomains` (base runner utils, not
in scope) issues idempotent create requests against the store without
waiting for readiness; it continues on success and propagates a store
failure as an error. It does not read or change the Subject's status. -/
def CreateFailureDomains (env : StoreEnv) (r : CloudStackClusterReconciliationRunner) :
    CloudStackClusterReconciliationRunner × StepResult :=
  match env.createResult with
  | some e => (r, StepResult.err e)
  | none => (r, StepResult.ok)

/-- Modelled from the spec: `GetFailureDomains` (base runner utils, not in
scope) lists all dependent resources owned by this Subject into
`r.FailureDomains`, propagating a store failure as an error. -/
def GetFailureDomains (env : StoreEnv) (r : CloudStackClusterReconciliationRunner) :
    CloudStackClusterReconciliationRunner × StepResult :=
  match env.fetchResult with
  | Except.error e => (r, StepResult.err e)
  | Except.ok items => ({ r with FailureDomains := items }, StepResult.ok)

/-- Modelled from the spec: `RunReconciliationStages` (base runner, not in
scope) runs the steps in order, short-circuiting on the first requeue or
error; running out of steps is success. -/
def RunReconciliationStages :
    List (CloudStackClusterReconciliationRunner →
          CloudStackClusterReconciliationRunner × StepResult) →
    CloudStackClusterReconciliationRunner →
    CloudStackClusterReconciliationRunner × StepResult
  | [], r => (r, StepResult.ok)
  | f :: fs, r =>
    match f r with
    | (r₂, StepResult.ok) => RunReconciliationStages fs r₂
    | (r₂, out) => (r₂, out)

/-- Embeds `Reconcile` of the runner (source lines 88-95): the Normal-mode
stage list, in source order. -/
def Reconcile (env : StoreEnv) (r : CloudStackClusterReconciliationRunner) :
    CloudStackClusterReconciliationRunner × StepResult :=
  RunReconciliationStages
    [SetFailureDomainsStatusMap,
     CreateFailureDomains env,
     GetFailureDomains env,
     VerifyFailureDomainCRDs,
     SetReady] r

/-- Responses of the external Resource Store during one deletion-mode
invocation: the fetch outcome and, per dependent, whether its delete
request fails (`some` error) or succeeds (`none`). -/
structure DeleteEnv where
  fetchResult : Except String (List CloudStackFailureDomain)
  deleteResult : CloudStackFailureDomain → Option String

/-- Delete requests issued in list order by the loop at source lines
138-142, stopping at the first failure: returns the dependents a delete was
issued for, and the first error if any. -/
def issueDeletes (del : CloudStackFailureDomain → Option String) :
    List CloudStackFailureDomain → List CloudStackFailureDomain × Option String
  | [] => ([], none)
  | fd :: rest =>
    match del fd with
    | some e => ([fd], some e)
    | none =>
      let p := issueDeletes del rest
      (fd :: p.1, p.2)

/-- Result of one deletion-mode invocation: the runner state afterwards, the
delete requests issued to the store, and the step outcome. -/
structure DeleteRun where
  state : CloudStackClusterReconciliationRunner
  deletesIssued : List CloudStackFailureDomain
  outcome : StepResult
deriving Repr

/-- Embeds `ReconcileDelete` (source lines 132-147): fetch the dependents
(returning early on a fetch failure, per `ShouldReturn`); if any exist,
issue a delete for each — an individual failure aborts the step with that
error — then requeue with the message of line 143; if none exist, remove
the cluster finalizer and return plain success. -/
def ReconcileDelete (env : DeleteEnv) (r : CloudStackClusterReconciliationRunner) : DeleteRun :=
  match env.fetchResult with
  | Except.error e => ⟨r, [], StepResult.err e⟩
  | Except.ok items =>
    let r₂ := { r with FailureDomains := items }
    if items.length > 0 then
      match issueDeletes env.deleteResult items with
      | (issued, some e) => ⟨r₂, issued, StepResult.err e⟩
      | (issued, none) =>
        ⟨r₂, issued, StepResult.requeue "Child FailureDomains still present, requeueing."⟩
    else
      ⟨{ r₂ with ReconciliationSubject :=
          { r₂.ReconciliationSubject with meta :=
            { r₂.ReconciliationSubject.meta with
              Finalizers := removeFinalizer r₂.ReconciliationSubject.meta.Finalizers ClusterFinalizer } } },
        [], StepResult.ok⟩

/-- Masking applied by the Subject's update event filter (source lines
156-169): clear resource version, finalizers, managed fields and the whole
status before comparing. -/
def maskForCompare (c : CloudStackCluster) : CloudStackCluster :=
  { c with
    meta := { c.meta with ResourceVersion := "", Finalizers := [], ManagedFields := [] },
    Status := { Ready := false, FailureDomains := [] } }

/-- Embeds the Subject's update event filter (source lines 155-172):
deep-equality of the two masked copies, negated. -/
def clusterUpdateFilter (oldC newC : CloudStackCluster) : Bool :=
  if maskForCompare oldC = maskForCompare newC then false else true

/-- Embeds `clusterv1.Cluster.Spec` as read by the owner watch (source line
188): only `Paused` is consulted. -/
structure CAPIClusterSpec where
  Paused : Bool
deriving DecidableEq, Repr

/-- Embeds the owner `clusterv1.Cluster` object as used by the watch. -/
structure CAPICluster where
  Name : String
  Spec : CAPIClusterSpec
deriving DecidableEq, Repr

/-- Embeds the owner-watch update predicate (source lines 185-189):
fire exactly on a paused-to-unpaused transition. -/
def capiUpdatePredicate (oldC newC : CAPICluster) : Bool :=
  oldC.Spec.Paused && !newC.Spec.Paused

/-- Embeds the owner-watch delete predicate (source line 190): always false. -/
def capiDeletePredicate (_c : CAPICluster) : Bool := false

/-- Embeds the owner-watch create predicate (source line 191): always false. -/
def capiCreatePredicate (_c : CAPICluster) : Bool := false

/-! Helper lemmas about the embedded map and list operations. -/

lemma hasSuffix_append (a b : String) : hasSuffix (a ++ b) b = true := by
  simp [hasSuffix, String.data_append, List.isSuffixOf]

lemma find?_filter_ne_eq_none (m : List (String × FailureDomainSpecV1)) (k : String) :
    (m.filter fun p => p.1 ≠ k).find? (fun p => p.1 = k) = none := by
  refine List.find?_eq_none.mpr ?_
  intro p hp
  have := (List.mem_filter.mp hp).2
  simpa using this

lemma mapLookup_mapInsert_self (m : List (String × FailureDomainSpecV1)) (k : String)
    (v : FailureDomainSpecV1) : mapLookup (mapInsert m k v) k = some v := by
  simp [mapLookup, mapInsert, List.find?_append, find?_filter_ne_eq_none]

lemma mapLookup_mapInsert_ne (m : List (String × FailureDomainSpecV1)) (k k' : String)
    (v : FailureDomainSpecV1) (h : k' ≠ k) :
    mapLookup (mapInsert m k v) k' = mapLookup m k' := by
  have hpred : (fun a : String × FailureDomainSpecV1 => (!decide (a.1 = k) && decide (a.1 = k')))
      = fun a : String × FailureDomainSpecV1 => decide (a.1 = k') := by
    funext a
    by_cases ha : a.1 = k'
    · simp [ha, h]
    · simp [ha]
  simp [mapLookup, mapInsert, List.find?_append, List.find?_filter, hpred, Ne.symm h]

lemma mapLookup_eq_none_iff (m : List (String × FailureDomainSpecV1)) (k : String) :
    mapLookup m k = none ↔ ∀ p ∈ m, p.1 ≠ k := by
  simp [mapLookup, List.find?_eq_none]

lemma mapInsert_length_of_absent (m : List (String × FailureDomainSpecV1)) (k : String)
    (v : FailureDomainSpecV1) (h : mapLookup m k = none) :
    (mapInsert m k v).length = m.length + 1 := by
  have hfilter : (m.filter fun p => p.1 ≠ k) = m := by
    refine List.filter_eq_self.mpr ?_
    rintro ⟨a, b⟩ hab
    simpa using (mapLookup_eq_none_iff m k).mp h (a, b) hab
  unfold mapInsert
  rw [hfilter]
  simp

lemma firstNotReady_eq_none_iff (l : List CloudStackFailureDomain) :
    firstNotReady l = none ↔ ∀ fd ∈ l, fd.Status.Ready = true := by
  induction l with
  | nil => simp [firstNotReady]
  | cons fd rest ih =>
    by_cases h : fd.Status.Ready
    · simp [firstNotReady, h, ih]
    · simp [firstNotReady, h]

lemma firstNotReady_mem (l : List CloudStackFailureDomain) (fd : CloudStackFailureDomain)
    (h : firstNotReady l = some fd) : fd ∈ l ∧ fd.Status.Ready = false := by
  induction l with
  | nil => simp [firstNotReady] at h
  | cons fd₂ rest ih =>
    by_cases h₂ : fd₂.Status.Ready
    · rw [firstNotReady, if_pos h₂] at h
      rcases ih h with ⟨hmem, hready⟩
      exact ⟨List.mem_cons_of_mem _ hmem, hready⟩
    · rw [firstNotReady, if_neg h₂] at h
      cases h
      exact ⟨List.mem_cons_self _ _, by simpa using h₂⟩

lemma firstNotReady_of_exists (l : List CloudStackFailureDomain)
    (h : ∃ fd ∈ l, fd.Status.Ready = false) : ∃ fd, firstNotReady l = some fd := by
  cases hfnr : firstNotReady l with
  | some fd => exact ⟨fd, rfl⟩
  | none =>
    rcases h with ⟨fd, hmem, hready⟩
    have := (firstNotReady_eq_none_iff l).mp hfnr fd hmem
    rw [this] at hready
    cases hready

open Classical in
lemma foldl_mapInsert_lookup (owner : String) (specs : List CloudStackFailureDomainSpec)
    (m : List (String × FailureDomainSpecV1)) (k : String) :
    mapLookup (specs.foldl
      (fun acc fdSpec => mapInsert acc (normalizeFDName fdSpec.Name owner) ⟨true⟩) m) k =
    if ∃ fd ∈ specs, normalizeFDName fd.Name owner = k then some ⟨true⟩ else mapLookup m k := by
  induction specs generalizing m with
  | nil => simp
  | cons s rest ih =>
    rw [List.foldl_cons, ih]
    by_cases hrest : ∃ fd ∈ rest, normalizeFDName fd.Name owner = k
    · rw [if_pos hrest]
      rcases hrest with ⟨fd, hfd, hk⟩
      rw [if_pos ⟨fd, List.mem_cons_of_mem _ hfd, hk⟩]
    · rw [if_neg hrest]
      by_cases hs : normalizeFDName s.Name owner = k
      · rw [if_pos ⟨s, List.mem_cons_self _ _, hs⟩, hs, mapLookup_mapInsert_self]
      · have hne : k ≠ normalizeFDName s.Name owner := fun he => hs he.symm
        rw [mapLookup_mapInsert_ne _ _ _ _ hne, if_neg ?_]
        rintro ⟨fd, hfd, hk⟩
        rcases List.mem_cons.mp hfd with he | hm
        · exact hs (he ▸ hk)
        · exact hrest ⟨fd, hm, hk⟩

lemma foldl_mapInsert_length (owner : String) (specs : List CloudStackFailureDomainSpec)
    (m : List (String × FailureDomainSpecV1))
    (hnd : (specs.map fun fd => normalizeFDName fd.Name owner).Nodup)
    (habs : ∀ fd ∈ specs, mapLookup m (normalizeFDName fd.Name owner) = none) :
    (specs.foldl
      (fun acc fdSpec => mapInsert acc (normalizeFDName fdSpec.Name owner) ⟨true⟩) m).length
      = m.length + specs.length := by
  induction specs generalizing m with
  | nil => simp
  | cons s rest ih =>
    rw [List.foldl_cons]
    have hkey : mapLookup m (normalizeFDName s.Name owner) = none :=
      habs s (List.mem_cons_self _ _)
    rw [List.map_cons, List.nodup_cons] at hnd
    have habs₂ : ∀ fd ∈ rest,
        mapLookup (mapInsert m (normalizeFDName s.Name owner) ⟨true⟩)
          (normalizeFDName fd.Name owner) = none := by
      intro fd hfd
      have hne : normalizeFDName fd.Name owner ≠ normalizeFDName s.Name owner := by
        intro he
        exact hnd.1 (he ▸ List.mem_map_of_mem _ hfd)
      rw [mapLookup_mapInsert_ne _ _ _ _ hne]
      exact habs fd (List.mem_cons_of_mem _ hfd)
    rw [ih (mapInsert m (normalizeFDName s.Name owner) ⟨true⟩) hnd.2 habs₂,
      mapInsert_length_of_absent _ _ _ hkey, List.length_cons]
    omega

/-- C5: normalization appends the owner suffix exactly when it is missing,
leaves an already-suffixed name unchanged, and is idempotent. -/
theorem normalizeFDName_correct (n o : String) :
    (hasSuffix n ("-" ++ o) = false → normalizeFDName n o = n ++ "-" ++ o) ∧
    (hasSuffix n ("-" ++ o) = true → normalizeFDName n o = n) ∧
    normalizeFDName (normalizeFDName n o) o = normalizeFDName n o := by
  refine ⟨?_, ?_, ?_⟩
  · intro h
    simp [normalizeFDName, h]
  · intro h
    simp [normalizeFDName, h]
  · cases h : hasSuffix n ("-" ++ o) with
    | true => simp [normalizeFDName, h]
    | false =>
      have hs : hasSuffix (n ++ "-" ++ o) ("-" ++ o) = true := by
        rw [String.append_assoc]
        exact hasSuffix_append n ("-" ++ o)
      simp [normalizeFDName, h, hs]

/-- Witness for C5 at the spec's concrete inputs. -/
theorem normalizeFDName_correct_witness :
    normalizeFDName "pool1" "demo" = "pool1-demo" ∧
    normalizeFDName "pool1-demo" "demo" = "pool1-demo" ∧
    normalizeFDName (normalizeFDName "pool1" "demo") "demo" = normalizeFDName "pool1" "demo" :=
  ⟨((normalizeFDName_correct "pool1" "demo").1 (by decide)).trans (by decide),
   (normalizeFDName_correct "pool1-demo" "demo").2.1 (by decide),
   (normalizeFDName_correct "pool1" "demo").2.2⟩

/-- C4: the readiness verification requeues (never errors) with the exact
count-mismatch message when the expected and fetched counts differ; with a
message naming a not-ready dependent when one exists; and continues with no
error when counts agree and every fetched dependent is ready. -/
theorem VerifyFailureDomainCRDs_correct (r : CloudStackClusterReconciliationRunner) :
    (∀ msg, (VerifyFailureDomainCRDs r).2 ≠ StepResult.err msg) ∧
    (r.ReconciliationSubject.Spec.FailureDomains.length ≠ r.FailureDomains.length →
      VerifyFailureDomainCRDs r = (r, StepResult.requeue
        ("Expected " ++ toString r.ReconciliationSubject.Spec.FailureDomains.length ++
         " FailureDomains, but found " ++ toString r.FailureDomains.length))) ∧
    (r.ReconciliationSubject.Spec.FailureDomains.length = r.FailureDomains.length →
      (∃ fd ∈ r.FailureDomains, fd.Status.Ready = false) →
      ∃ fd ∈ r.FailureDomains, fd.Status.Ready = false ∧
        VerifyFailureDomainCRDs r = (r, StepResult.requeue
          ("FailureDomains " ++ fd.Namespace ++ "/" ++ fd.Name ++ " not ready, requeueing."))) ∧
    (r.ReconciliationSubject.Spec.FailureDomains.length = r.FailureDomains.length →
      (∀ fd ∈ r.FailureDomains, fd.Status.Ready = true) →
      VerifyFailureDomainCRDs r = (r, StepResult.ok)) := by
  refine ⟨?_, ?_, ?_, ?_⟩
  · intro msg
    by_cases h : r.ReconciliationSubject.Spec.FailureDomains.length = r.FailureDomains.length
    · cases hfnr : firstNotReady r.FailureDomains with
      | some fd => simp [VerifyFailureDomainCRDs, h, hfnr]
      | none => simp [VerifyFailureDomainCRDs, h, hfnr]
    · simp [VerifyFailureDomainCRDs, h]
  · intro h
    simp [VerifyFailureDomainCRDs, h]
  · intro h hex
    rcases firstNotReady_of_exists _ hex with ⟨fd, hfnr⟩
    rcases firstNotReady_mem _ _ hfnr with ⟨hmem, hnready⟩
    exact ⟨fd, hmem, hnready, by simp [VerifyFailureDomainCRDs, h, hfnr]⟩
  · intro h hall
    have hn : firstNotReady r.FailureDomains = none := (firstNotReady_eq_none_iff _).mpr hall
    simp [VerifyFailureDomainCRDs, h, hn]

/-- Sample runner for the count-mismatch example of the spec: three declared
FailureDomainSpecs but only two fetched dependents. -/
def mismatchRunner : CloudStackClusterReconciliationRunner :=
  { ReconciliationSubject :=
      { meta := { Name := "cluster1", Namespace := "default", Generation := 1, Labels := [],
                  ResourceVersion := "7", Finalizers := [], ManagedFields := [] },
        Spec := { FailureDomains := [⟨"fd1"⟩, ⟨"fd2"⟩, ⟨"fd3"⟩] },
        Status := { Ready := false, FailureDomains := [] } },
    FailureDomains :=
      [⟨"default", "fd1-demo", ⟨true⟩⟩, ⟨"default", "fd2-demo", ⟨true⟩⟩],
    CAPIClusterName := "demo" }

/-- Sample runner whose fetched dependents all report ready and match the
declared count. -/
def readyRunner : CloudStackClusterReconciliationRunner :=
  { ReconciliationSubject :=
      { meta := { Name := "cluster1", Namespace := "default", Generation := 1, Labels := [],
                  ResourceVersion := "7", Finalizers := [], ManagedFields := [] },
        Spec := { FailureDomains := [⟨"fd1"⟩] },
        Status := { Ready := false, FailureDomains := [] } },
    FailureDomains := [⟨"default", "fd1-demo", ⟨true⟩⟩],
    CAPIClusterName := "demo" }

/-- Witness for C4: at the spec's own example (3 declared, 2 found) the step
requeues with exactly the message the spec quotes, and at a matching
all-ready input it continues. -/
theorem VerifyFailureDomainCRDs_correct_witness :
    VerifyFailureDomainCRDs mismatchRunner =
      (mismatchRunner, StepResult.requeue "Expected 3 FailureDomains, but found 2") ∧
    VerifyFailureDomainCRDs readyRunner = (readyRunner, StepResult.ok) :=
  ⟨((VerifyFailureDomainCRDs_correct mismatchRunner).2.1 (by decide)).trans (by decide),
   (VerifyFailureDomainCRDs_correct readyRunner).2.2.2 (by decide) (by decide)⟩

lemma SetFailureDomainsStatusMap_proj (r : CloudStackClusterReconciliationRunner) :
    (SetFailureDomainsStatusMap r).1.ReconciliationSubject.Status.FailureDomains
      = r.ReconciliationSubject.Spec.FailureDomains.foldl
        (fun m fdSpec => mapInsert m (normalizeFDName fdSpec.Name r.CAPIClusterName) ⟨true⟩) [] :=
  rfl

/-- C6: the status projector continues with no error and replaces the status
map entirely: the rebuilt map holds `ControlPlane = true` exactly under the
normalized name of each declared FailureDomainSpec and nothing else (so it
has one entry per declared spec whenever the normalized names are distinct),
and the result is a function of the declared spec and the owner cluster name
alone, independent of any prior status content. -/
theorem SetFailureDomainsStatusMap_correct (r : CloudStackClusterReconciliationRunner) :
    (SetFailureDomainsStatusMap r).2 = StepResult.ok ∧
    (∀ k, (∃ fd ∈ r.ReconciliationSubject.Spec.FailureDomains,
            normalizeFDName fd.Name r.CAPIClusterName = k) →
      mapLookup (SetFailureDomainsStatusMap r).1.ReconciliationSubject.Status.FailureDomains k
        = some ⟨true⟩) ∧
    (∀ k, (∀ fd ∈ r.ReconciliationSubject.Spec.FailureDomains,
            normalizeFDName fd.Name r.CAPIClusterName ≠ k) →
      mapLookup (SetFailureDomainsStatusMap r).1.ReconciliationSubject.Status.FailureDomains k
        = none) ∧
    ((r.ReconciliationSubject.Spec.FailureDomains.map
        (fun fd => normalizeFDName fd.Name r.CAPIClusterName)).Nodup →
      (SetFailureDomainsStatusMap r).1.ReconciliationSubject.Status.FailureDomains.length
        = r.ReconciliationSubject.Spec.FailureDomains.length) ∧
    (∀ r₂ : CloudStackClusterReconciliationRunner,
      r₂.ReconciliationSubject.Spec.FailureDomains = r.ReconciliationSubject.Spec.FailureDomains →
      r₂.CAPIClusterName = r.CAPIClusterName →
      (SetFailureDomainsStatusMap r₂).1.ReconciliationSubject.Status.FailureDomains
        = (SetFailureDomainsStatusMap r).1.ReconciliationSubject.Status.FailureDomains) := by
  refine ⟨rfl, ?_, ?_, ?_, ?_⟩
  · intro k hx
    rw [SetFailureDomainsStatusMap_proj, foldl_mapInsert_lookup, if_pos hx]
  · intro k hall
    rw [SetFailureDomainsStatusMap_proj, foldl_mapInsert_lookup, if_neg ?_]
    · rfl
    · rintro ⟨fd, hfd, he⟩
      exact hall fd hfd he
  · intro hnd
    have habs : ∀ fd ∈ r.ReconciliationSubject.Spec.FailureDomains,
        mapLookup [] (normalizeFDName fd.Name r.CAPIClusterName) = none := by
      intro fd _
      rfl
    rw [SetFailureDomainsStatusMap_proj]
    simpa using foldl_mapInsert_length r.CAPIClusterName
      r.ReconciliationSubject.Spec.FailureDomains [] hnd habs
  · intro r₂ hspec howner
    rw [SetFailureDomainsStatusMap_proj, SetFailureDomainsStatusMap_proj, hspec, howner]

/-- Witness for C6 at a concrete runner: the rebuilt map answers
`ControlPlane = true` at a normalized declared name, answers nothing at an
undeclared name, and has one entry per declared spec. -/
theorem SetFailureDomainsStatusMap_correct_witness :
    mapLookup (SetFailureDomainsStatusMap mismatchRunner).1.ReconciliationSubject.Status.FailureDomains
      "fd1-demo" = some ⟨true⟩ ∧
    mapLookup (SetFailureDomainsStatusMap mismatchRunner).1.ReconciliationSubject.Status.FailureDomains
      "unrelated" = none ∧
    (SetFailureDomainsStatusMap mismatchRunner).1.ReconciliationSubject.Status.FailureDomains.length
      = mismatchRunner.ReconciliationSubject.Spec.FailureDomains.length :=
  ⟨(SetFailureDomainsStatusMap_correct mismatchRunner).2.1 "fd1-demo" ⟨⟨"fd1"⟩, by decide, by decide⟩,
   (SetFailureDomainsStatusMap_correct mismatchRunner).2.2.1 "unrelated" (by decide),
   (SetFailureDomainsStatusMap_correct mismatchRunner).2.2.2.1 (by decide)⟩

/-- C10: the status projector never mutates the Subject's spec — every
declared entry and its Name is identical before and after — nor the
metadata, the readiness flag, the fetched dependents or the owner name;
only `Status.FailureDomains` changes. -/
theorem SetFailureDomainsStatusMap_frame (r : CloudStackClusterReconciliationRunner) :
    (SetFailureDomainsStatusMap r).1.ReconciliationSubject.Spec = r.ReconciliationSubject.Spec ∧
    (SetFailureDomainsStatusMap r).1.ReconciliationSubject.Spec.FailureDomains.map
        CloudStackFailureDomainSpec.Name
      = r.ReconciliationSubject.Spec.FailureDomains.map CloudStackFailureDomainSpec.Name ∧
    (SetFailureDomainsStatusMap r).1.ReconciliationSubject.meta = r.ReconciliationSubject.meta ∧
    (SetFailureDomainsStatusMap r).1.ReconciliationSubject.Status.Ready
      = r.ReconciliationSubject.Status.Ready ∧
    (SetFailureDomainsStatusMap r).1.FailureDomains = r.FailureDomains ∧
    (SetFailureDomainsStatusMap r).1.CAPIClusterName = r.CAPIClusterName :=
  ⟨rfl, rfl, rfl, rfl, rfl, rfl⟩

/-- Runner state after the status-projection, create and fetch steps of the
Normal pipeline: the projected status plus the fetched dependents. -/
def midState (r : CloudStackClusterReconciliationRunner)
    (items : List CloudStackFailureDomain) : CloudStackClusterReconciliationRunner :=
  { (SetFailureDomainsStatusMap r).1 with FailureDomains := items }

lemma Reconcile_create_err (env : StoreEnv) (r : CloudStackClusterReconciliationRunner)
    (e : String) (hc : env.createResult = some e) :
    Reconcile env r = ((SetFailureDomainsStatusMap r).1, StepResult.err e) := by
  simp [Reconcile, RunReconciliationStages, SetFailureDomainsStatusMap, CreateFailureDomains, hc]

lemma Reconcile_fetch_err (env : StoreEnv) (r : CloudStackClusterReconciliationRunner)
    (e : String) (hc : env.createResult = none) (hf : env.fetchResult = Except.error e) :
    Reconcile env r = ((SetFailureDomainsStatusMap r).1, StepResult.err e) := by
  simp [Reconcile, RunReconciliationStages, SetFailureDomainsStatusMap, CreateFailureDomains,
    GetFailureDomains, hc, hf]

lemma Reconcile_count_mismatch (env : StoreEnv) (r : CloudStackClusterReconciliationRunner)
    (items : List CloudStackFailureDomain) (hc : env.createResult = none)
    (hf : env.fetchResult = Except.ok items)
    (hcount : ¬ r.ReconciliationSubject.Spec.FailureDomains.length = items.length) :
    Reconcile env r = (midState r items, StepResult.requeue
      ("Expected " ++ toString r.ReconciliationSubject.Spec.FailureDomains.length ++
       " FailureDomains, but found " ++ toString items.length)) := by
  simp [Reconcile, RunReconciliationStages, SetFailureDomainsStatusMap, CreateFailureDomains,
    GetFailureDomains, VerifyFailureDomainCRDs, midState, hc, hf, hcount]

lemma Reconcile_not_ready (env : StoreEnv) (r : CloudStackClusterReconciliationRunner)
    (items : List CloudStackFailureDomain) (fd : CloudStackFailureDomain)
    (hc : env.createResult = none) (hf : env.fetchResult = Except.ok items)
    (hcount : r.ReconciliationSubject.Spec.FailureDomains.length = items.length)
    (hfnr : firstNotReady items = some fd) :
    Reconcile env r = (midState r items, StepResult.requeue
      ("FailureDomains " ++ fd.Namespace ++ "/" ++ fd.Name ++ " not ready, requeueing.")) := by
  simp [Reconcile, RunReconciliationStages, SetFailureDomainsStatusMap, CreateFailureDomains,
    GetFailureDomains, VerifyFailureDomainCRDs, midState, hc, hf, hcount, hfnr]

lemma Reconcile_success (env : StoreEnv) (r : CloudStackClusterReconciliationRunner)
    (items : List CloudStackFailureDomain)
    (hc : env.createResult = none) (hf : env.fetchResult = Except.ok items)
    (hcount : r.ReconciliationSubject.Spec.FailureDomains.length = items.length)
    (hready : firstNotReady items = none) :
    Reconcile env r = SetReady (midState r items) := by
  simp [Reconcile, RunReconciliationStages, SetFailureDomainsStatusMap, CreateFailureDomains,
    GetFailureDomains, VerifyFailureDomainCRDs, SetReady, midState, hc, hf, hcount, hready]

lemma mem_addFinalizer (l : List String) (f : String) : f ∈ addFinalizer l f := by
  unfold addFinalizer
  by_cases h : f ∈ l
  · simp [h]
  · simp [h]

/-- C1 (amended): in Normal mode the pipeline sets `Status.Ready` to true
only when the fetch succeeded with exactly as many dependents as declared
FailureDomainSpecs and every fetched dependent reports ready (the code
compares cardinalities, not name-for-name correspondence); whenever the
count or readiness condition fails on a successful fetch after a
successful create, `VerifyFailureDomainCRDs` stops the pipeline with a
requeue before `SetReady` runs, leaving readiness and metadata untouched. -/
theorem Reconcile_ready_conditions (env : StoreEnv) (r : CloudStackClusterReconciliationRunner) :
    ((Reconcile env r).1.ReconciliationSubject.Status.Ready = true →
      r.ReconciliationSubject.Status.Ready = true ∨
      ∃ items, env.fetchResult = Except.ok items ∧
        items.length = r.ReconciliationSubject.Spec.FailureDomains.length ∧
        ∀ fd ∈ items, fd.Status.Ready = true) ∧
    (env.createResult = none →
      ∀ items, env.fetchResult = Except.ok items →
      (items.length ≠ r.ReconciliationSubject.Spec.FailureDomains.length ∨
        ∃ fd ∈ items, fd.Status.Ready = false) →
      (Reconcile env r).1.ReconciliationSubject.Status.Ready
          = r.ReconciliationSubject.Status.Ready ∧
      (Reconcile env r).1.ReconciliationSubject.meta = r.ReconciliationSubject.meta ∧
      ∃ msg, (Reconcile env r).2 = StepResult.requeue msg) := by
  constructor
  · intro h
    cases hc : env.createResult with
    | some e =>
      rw [Reconcile_create_err env r e hc] at h
      exact Or.inl h
    | none =>
      cases hf : env.fetchResult with
      | error e =>
        rw [Reconcile_fetch_err env r e hc hf] at h
        exact Or.inl h
      | ok items =>
        by_cases hcount : r.ReconciliationSubject.Spec.FailureDomains.length = items.length
        · cases hfnr : firstNotReady items with
          | some fd =>
            rw [Reconcile_not_ready env r items fd hc hf hcount hfnr] at h
            exact Or.inl h
          | none =>
            exact Or.inr ⟨items, rfl, hcount.symm, (firstNotReady_eq_none_iff items).mp hfnr⟩
        · rw [Reconcile_count_mismatch env r items hc hf hcount] at h
          exact Or.inl h
  · intro hc items hf hbad
    by_cases hcount : r.ReconciliationSubject.Spec.FailureDomains.length = items.length
    · have hex : ∃ fd ∈ items, fd.Status.Ready = false := by
        rcases hbad with hlen | hex
        · exact absurd hcount.symm hlen
        · exact hex
      rcases firstNotReady_of_exists items hex with ⟨fd, hfnr⟩
      rw [Reconcile_not_ready env r items fd hc hf hcount hfnr]
      exact ⟨rfl, rfl, _, rfl⟩
    · rw [Reconcile_count_mismatch env r items hc hf hcount]
      exact ⟨rfl, rfl, _, rfl⟩

/-- Sample Normal-mode store responses: the create step succeeds and the
fetch returns a single ready dependent whose name matches no declared
FailureDomainSpec. -/
def disjointNamesEnv : StoreEnv :=
  { createResult := none,
    fetchResult := Except.ok [⟨"default", "other-fd", ⟨true⟩⟩] }

/-- Sample runner declaring a single FailureDomainSpec named "pool1" owned
by CAPI cluster "demo". -/
def pool1Runner : CloudStackClusterReconciliationRunner :=
  { ReconciliationSubject :=
      { meta := { Name := "cluster1", Namespace := "default", Generation := 1, Labels := [],
                  ResourceVersion := "7", Finalizers := [], ManagedFields := [] },
        Spec := { FailureDomains := [⟨"pool1"⟩] },
        Status := { Ready := false, FailureDomains := [] } },
    FailureDomains := [],
    CAPIClusterName := "demo" }

/-- Counterexample to C1 as stated: the fetched dependent set consists of a
single ready dependent named "other-fd", which matches the declared set
only in cardinality — its name differs from the sole normalized declared
name "pool1-demo" — yet the pipeline still runs `SetReady` and sets
`Status.Ready` to true, because `VerifyFailureDomainCRDs` compares only the
counts. -/
theorem Reconcile_ready_counterexample :
    (Reconcile disjointNamesEnv pool1Runner).1.ReconciliationSubject.Status.Ready = true ∧
    (Reconcile disjointNamesEnv pool1Runner).2 = StepResult.ok ∧
    pool1Runner.ReconciliationSubject.Spec.FailureDomains.map
      (fun fd => normalizeFDName fd.Name pool1Runner.CAPIClusterName) = ["pool1-demo"] ∧
    (Reconcile disjointNamesEnv pool1Runner).1.FailureDomains.map
      CloudStackFailureDomain.Name = ["other-fd"] ∧
    ("other-fd" : String) ≠ "pool1-demo" :=
  ⟨by decide, by decide, by decide, by decide, by decide⟩

/-- Sample Normal-mode store responses for a requeue: two ready dependents
fetched against one declared FailureDomainSpec. -/
def twoFetchedEnv : StoreEnv :=
  { createResult := none,
    fetchResult := Except.ok [⟨"default", "a", ⟨true⟩⟩, ⟨"default", "b", ⟨true⟩⟩] }

/-- Witness for C1 at concrete inputs: a successful run justifies readiness
through the count-and-readiness conditions, and a count mismatch requeues
without touching readiness. -/
theorem Reconcile_ready_conditions_witness :
    (pool1Runner.ReconciliationSubject.Status.Ready = true ∨
      ∃ items, disjointNamesEnv.fetchResult = Except.ok items ∧
        items.length = pool1Runner.ReconciliationSubject.Spec.FailureDomains.length ∧
        ∀ fd ∈ items, fd.Status.Ready = true) ∧
    ((Reconcile twoFetchedEnv pool1Runner).1.ReconciliationSubject.Status.Ready
        = pool1Runner.ReconciliationSubject.Status.Ready ∧
      (Reconcile twoFetchedEnv pool1Runner).1.ReconciliationSubject.meta
        = pool1Runner.ReconciliationSubject.meta ∧
      ∃ msg, (Reconcile twoFetchedEnv pool1Runner).2 = StepResult.requeue msg) :=
  ⟨(Reconcile_ready_conditions disjointNamesEnv pool1Runner).1 (by decide),
   (Reconcile_ready_conditions twoFetchedEnv pool1Runner).2 rfl _ rfl (Or.inl (by decide))⟩

/-- C9: `SetReady` adds the cluster finalizer and sets `Status.Ready` in the
same infallible step; hence every successful completion of the Normal
pipeline ends with `Status.Ready` true and the finalizer present. -/
theorem SetReady_adds_finalizer (env : StoreEnv) (r : CloudStackClusterReconciliationRunner) :
    ((SetReady r).2 = StepResult.ok ∧
     (SetReady r).1.ReconciliationSubject.Status.Ready = true ∧
     ClusterFinalizer ∈ (SetReady r).1.ReconciliationSubject.meta.Finalizers) ∧
    ((Reconcile env r).2 = StepResult.ok →
      (Reconcile env r).1.ReconciliationSubject.Status.Ready = true ∧
      ClusterFinalizer ∈ (Reconcile env r).1.ReconciliationSubject.meta.Finalizers) := by
  refine ⟨⟨rfl, rfl, mem_addFinalizer _ _⟩, ?_⟩
  intro h
  cases hc : env.createResult with
  | some e =>
    rw [Reconcile_create_err env r e hc] at h
    cases h
  | none =>
    cases hf : env.fetchResult with
    | error e =>
      rw [Reconcile_fetch_err env r e hc hf] at h
      cases h
    | ok items =>
      by_cases hcount : r.ReconciliationSubject.Spec.FailureDomains.length = items.length
      · cases hfnr : firstNotReady items with
        | some fd =>
          rw [Reconcile_not_ready env r items fd hc hf hcount hfnr] at h
          cases h
        | none =>
          rw [Reconcile_success env r items hc hf hcount hfnr]
          exact ⟨rfl, mem_addFinalizer _ _⟩
      · rw [Reconcile_count_mismatch env r items hc hf hcount] at h
        cases h

/-- Sample Normal-mode store responses under which the whole pipeline
succeeds for `readyRunner`'s Subject: one ready dependent fetched. -/
def succeedingEnv : StoreEnv :=
  { createResult := none,
    fetchResult := Except.ok [⟨"default", "fd1-demo", ⟨true⟩⟩] }

/-- Witness for C9: a concrete successful pipeline run ends ready and
carrying the finalizer. -/
theorem SetReady_adds_finalizer_witness :
    (Reconcile succeedingEnv readyRunner).1.ReconciliationSubject.Status.Ready = true ∧
    ClusterFinalizer ∈ (Reconcile succeedingEnv readyRunner).1.ReconciliationSubject.meta.Finalizers :=
  (SetReady_adds_finalizer succeedingEnv readyRunner).2 (by decide)

lemma issueDeletes_all_ok (del : CloudStackFailureDomain → Option String)
    (items : List CloudStackFailureDomain) (h : ∀ fd ∈ items, del fd = none) :
    issueDeletes del items = (items, none) := by
  induction items with
  | nil => rfl
  | cons fd rest ih =>
    have h₁ : del fd = none := h fd (List.mem_cons_self _ _)
    have h₂ := ih fun fd₂ hfd₂ => h fd₂ (List.mem_cons_of_mem _ hfd₂)
    simp [issueDeletes, h₁, h₂]

lemma issueDeletes_err_of_exists (del : CloudStackFailureDomain → Option String)
    (items : List CloudStackFailureDomain) (h : ∃ fd ∈ items, del fd ≠ none) :
    ∃ e, (issueDeletes del items).2 = some e := by
  induction items with
  | nil => simp at h
  | cons fd rest ih =>
    cases hd : del fd with
    | some e => exact ⟨e, by simp [issueDeletes, hd]⟩
    | none =>
      have h₂ : ∃ fd₂ ∈ rest, del fd₂ ≠ none := by
        rcases h with ⟨fd₂, hf₂, hne⟩
        rcases List.mem_cons.mp hf₂ with he | hm
        · rw [he] at hne
          exact absurd hd hne
        · exact ⟨fd₂, hm, hne⟩
      rcases ih h₂ with ⟨e, he⟩
      exact ⟨e, by simp [issueDeletes, hd, he]⟩

/-- C2: during a deletion-mode invocation the cluster finalizer is removed
only on the path where the fetch of dependents returned an empty set; while
any dependent is still observable (or the fetch failed) the Subject's
finalizer set is untouched. -/
theorem ReconcileDelete_finalizer_safety (env : DeleteEnv)
    (r : CloudStackClusterReconciliationRunner)
    (hbefore : ClusterFinalizer ∈ r.ReconciliationSubject.meta.Finalizers)
    (hafter : ClusterFinalizer ∉
      (ReconcileDelete env r).state.ReconciliationSubject.meta.Finalizers) :
    env.fetchResult = Except.ok [] := by
  cases hf : env.fetchResult with
  | error e =>
    have hst : (ReconcileDelete env r).state = r := by
      simp [ReconcileDelete, hf]
    rw [hst] at hafter
    exact absurd hbefore hafter
  | ok items =>
    cases items with
    | nil => rfl
    | cons fd rest =>
      have hst : (ReconcileDelete env r).state.ReconciliationSubject.meta.Finalizers
          = r.ReconciliationSubject.meta.Finalizers := by
        rcases hiss : issueDeletes env.deleteResult (fd :: rest) with ⟨issued, oerr⟩
        cases oerr with
        | none => simp [ReconcileDelete, hf, hiss]
        | some e => simp [ReconcileDelete, hf, hiss]
      rw [hst] at hafter
      exact absurd hbefore hafter

/-- C3: in deletion mode, on a successful fetch of a non-empty dependent
set the coordinator issues a delete request for every dependent (a single
delete failure aborts the step with an error, after which the finalizer
set is untouched) and then requeues with the message of the source; on an
empty fetch it removes the cluster finalizer and returns plain success
with no requeue and no error, issuing no deletes. -/
theorem ReconcileDelete_correct (env : DeleteEnv) (r : CloudStackClusterReconciliationRunner)
    (items : List CloudStackFailureDomain) (hf : env.fetchResult = Except.ok items) :
    (items ≠ [] → (∀ fd ∈ items, env.deleteResult fd = none) →
      (ReconcileDelete env r).deletesIssued = items ∧
      (ReconcileDelete env r).outcome
        = StepResult.requeue "Child FailureDomains still present, requeueing." ∧
      (ReconcileDelete env r).state.ReconciliationSubject.meta.Finalizers
        = r.ReconciliationSubject.meta.Finalizers) ∧
    (items ≠ [] → (∃ fd ∈ items, env.deleteResult fd ≠ none) →
      (∃ e, (ReconcileDelete env r).outcome = StepResult.err e) ∧
      (ReconcileDelete env r).state.ReconciliationSubject.meta.Finalizers
        = r.ReconciliationSubject.meta.Finalizers) ∧
    (items = [] →
      (ReconcileDelete env r).outcome = StepResult.ok ∧
      (ReconcileDelete env r).deletesIssued = [] ∧
      (ReconcileDelete env r).state.ReconciliationSubject.meta.Finalizers
        = removeFinalizer r.ReconciliationSubject.meta.Finalizers ClusterFinalizer) := by
  refine ⟨?_, ?_, ?_⟩
  · intro hne hall
    have hiss := issueDeletes_all_ok env.deleteResult items hall
    have hlen : items.length > 0 := List.length_pos.mpr hne
    refine ⟨?_, ?_, ?_⟩ <;> simp [ReconcileDelete, hf, hiss, hlen]
  · intro hne hex
    rcases issueDeletes_err_of_exists env.deleteResult items hex with ⟨e, he⟩
    have hlen : items.length > 0 := List.length_pos.mpr hne
    rcases hiss : issueDeletes env.deleteResult items with ⟨issued, oerr⟩
    rw [hiss] at he
    cases he
    refine ⟨⟨e, ?_⟩, ?_⟩ <;> simp [ReconcileDelete, hf, hiss, hlen]
  · intro hnil
    rw [hnil] at hf
    refine ⟨?_, ?_, ?_⟩ <;> simp [ReconcileDelete, hf]

/-- Sample Subject carrying the cluster finalizer, with no dependents
fetched yet, used by the deletion-mode witnesses. -/
def finalizedRunner : CloudStackClusterReconciliationRunner :=
  { ReconciliationSubject :=
      { meta := { Name := "cluster1", Namespace := "default", Generation := 1, Labels := [],
                  ResourceVersion := "7", Finalizers := [ClusterFinalizer], ManagedFields := [] },
        Spec := { FailureDomains := [⟨"pool1"⟩] },
        Status := { Ready := true, FailureDomains := [] } },
    FailureDomains := [],
    CAPIClusterName := "demo" }

/-- Sample deletion-mode store responses: the fetch finds no dependents. -/
def emptyDeleteEnv : DeleteEnv :=
  { fetchResult := Except.ok [], deleteResult := fun _ => none }

/-- Sample deletion-mode store responses: the fetch finds one dependent and
every delete request succeeds. -/
def busyDeleteEnv : DeleteEnv :=
  { fetchResult := Except.ok [⟨"default", "pool1-demo", ⟨true⟩⟩],
    deleteResult := fun _ => none }

/-- Witness for C2: at a concrete empty-fetch deletion run that removes the
finalizer, the fetch indeed returned the empty set. -/
theorem ReconcileDelete_finalizer_safety_witness :
    emptyDeleteEnv.fetchResult = Except.ok [] :=
  ReconcileDelete_finalizer_safety emptyDeleteEnv finalizedRunner (by decide) (by decide)

/-- Witness for C3 at concrete inputs: a one-dependent fetch issues that
delete and requeues keeping the finalizer, and an empty fetch removes the
finalizer and returns success. -/
theorem ReconcileDelete_correct_witness :
    ((ReconcileDelete busyDeleteEnv finalizedRunner).deletesIssued
        = [⟨"default", "pool1-demo", ⟨true⟩⟩] ∧
      (ReconcileDelete busyDeleteEnv finalizedRunner).outcome
        = StepResult.requeue "Child FailureDomains still present, requeueing." ∧
      (ReconcileDelete busyDeleteEnv finalizedRunner).state.ReconciliationSubject.meta.Finalizers
        = finalizedRunner.ReconciliationSubject.meta.Finalizers) ∧
    ((ReconcileDelete emptyDeleteEnv finalizedRunner).outcome = StepResult.ok ∧
      (ReconcileDelete emptyDeleteEnv finalizedRunner).deletesIssued = [] ∧
      (ReconcileDelete emptyDeleteEnv finalizedRunner).state.ReconciliationSubject.meta.Finalizers
        = removeFinalizer finalizedRunner.ReconciliationSubject.meta.Finalizers ClusterFinalizer) :=
  ⟨(ReconcileDelete_correct busyDeleteEnv finalizedRunner _ rfl).1 (by decide)
      (by intro fd _; rfl),
   (ReconcileDelete_correct emptyDeleteEnv finalizedRunner [] rfl).2.2 rfl⟩

/-- C7: the Subject's update event filter returns false when the old and
new versions agree on everything except resource version, finalizers,
managed fields and the status subtree, and returns true whenever
`Spec.FailureDomains` differs. -/
theorem clusterUpdateFilter_correct (oldC newC : CloudStackCluster) :
    (oldC.Spec = newC.Spec → oldC.meta.Name = newC.meta.Name →
      oldC.meta.Namespace = newC.meta.Namespace →
      oldC.meta.Generation = newC.meta.Generation →
      oldC.meta.Labels = newC.meta.Labels →
      clusterUpdateFilter oldC newC = false) ∧
    (oldC.Spec.FailureDomains ≠ newC.Spec.FailureDomains →
      clusterUpdateFilter oldC newC = true) := by
  constructor
  · intro h1 h2 h3 h4 h5
    have hmask : maskForCompare oldC = maskForCompare newC := by
      simp [maskForCompare, h1, h2, h3, h4, h5]
    simp [clusterUpdateFilter, hmask]
  · intro hne
    have hne₂ : maskForCompare oldC ≠ maskForCompare newC := fun heq =>
      hne (congrArg (fun c => c.Spec.FailureDomains) heq)
    simp [clusterUpdateFilter, hne₂]

/-- Sample old version of a Subject for the event-filter witnesses. -/
def oldSubject : CloudStackCluster :=
  { meta := { Name := "cluster1", Namespace := "default", Generation := 1, Labels := [],
              ResourceVersion := "10", Finalizers := [], ManagedFields := [] },
    Spec := { FailureDomains := [⟨"pool1"⟩] },
    Status := { Ready := false, FailureDomains := [] } }

/-- Sample new version differing from `oldSubject` only in resource
version, finalizers, managed fields and status. -/
def newSubjectBookkeepingOnly : CloudStackCluster :=
  { meta := { Name := "cluster1", Namespace := "default", Generation := 1, Labels := [],
              ResourceVersion := "11", Finalizers := [ClusterFinalizer],
              ManagedFields := ["manager"] },
    Spec := { FailureDomains := [⟨"pool1"⟩] },
    Status := { Ready := true, FailureDomains := [("pool1-demo", ⟨true⟩)] } }

/-- Sample new version whose declared FailureDomains changed. -/
def newSubjectSpecChanged : CloudStackCluster :=
  { meta := { Name := "cluster1", Namespace := "default", Generation := 2, Labels := [],
              ResourceVersion := "12", Finalizers := [], ManagedFields := [] },
    Spec := { FailureDomains := [⟨"pool1"⟩, ⟨"pool2"⟩] },
    Status := { Ready := false, FailureDomains := [] } }

/-- Witness for C7: a bookkeeping-only notification is suppressed and a
spec.FailureDomains change fires. -/
theorem clusterUpdateFilter_correct_witness :
    clusterUpdateFilter oldSubject newSubjectBookkeepingOnly = false ∧
    clusterUpdateFilter oldSubject newSubjectSpecChanged = true :=
  ⟨(clusterUpdateFilter_correct oldSubject newSubjectBookkeepingOnly).1 rfl rfl rfl rfl rfl,
   (clusterUpdateFilter_correct oldSubject newSubjectSpecChanged).2 (by decide)⟩

/-- C8: the owner-watch update predicate returns true exactly on a
paused-to-unpaused transition of the owner cluster (in particular an
unpaused-to-paused transition returns false), and the create and delete
predicates on the owner type always return false. -/
theorem capiPredicates_correct (oldC newC c : CAPICluster) :
    (capiUpdatePredicate oldC newC = true ↔
      oldC.Spec.Paused = true ∧ newC.Spec.Paused = false) ∧
    capiDeletePredicate c = false ∧
    capiCreatePredicate c = false := by
  refine ⟨?_, rfl, rfl⟩
  simp [capiUpdatePredicate]
